import Mathlib

/-!
Shallow embedding of the AyushBridge terminology mapping core
(`backend/mapping_engine.py`, `fhir_resources.py`, `models.py`).

Python dictionaries are modelled as association lists with CPython
(3.7+) semantics: assignment to an existing key replaces the value in
place (keeping the key's position), assignment to a fresh key appends,
and iteration follows insertion order.  Strings are Lean `String`s;
Python truthiness of an optional string ("non-None and non-empty") is
made explicit.  `Except` models a raised exception escaping
`MappingEngine.__init__`: an `error` result means no engine object is
ever produced.
-/

namespace AyushBridge

/-- The ten FHIR ConceptMap equivalence codes (`models.EquivalenceEnum`). -/
inductive EquivalenceEnum where
  | relatedto
  | equivalent
  | equal
  | wider
  | subsumes
  | narrower
  | specializes
  | inexact
  | unmatched
  | disjoint
deriving DecidableEq, Repr

/-- The string value of an equivalence code (`EquivalenceEnum.value`). -/
def EquivalenceEnum.value : EquivalenceEnum → String
  | .relatedto => "relatedto"
  | .equivalent => "equivalent"
  | .equal => "equal"
  | .wider => "wider"
  | .subsumes => "subsumes"
  | .narrower => "narrower"
  | .specializes => "specializes"
  | .inexact => "inexact"
  | .unmatched => "unmatched"
  | .disjoint => "disjoint"

/-- Parsing a string into the closed enumeration; `none` models the
`ValueError` Python raises for `EquivalenceEnum(bad_value)`. -/
def EquivalenceEnum.ofString? (s : String) : Option EquivalenceEnum :=
  if s = "relatedto" then some .relatedto
  else if s = "equivalent" then some .equivalent
  else if s = "equal" then some .equal
  else if s = "wider" then some .wider
  else if s = "subsumes" then some .subsumes
  else if s = "narrower" then some .narrower
  else if s = "specializes" then some .specializes
  else if s = "inexact" then some .inexact
  else if s = "unmatched" then some .unmatched
  else if s = "disjoint" then some .disjoint
  else none

/-- An exception escaping record construction during `_load_mappings`:
`keyError f` models `KeyError` on a missing required key `f`;
`valueError v` models the `ValueError` raised by `EquivalenceEnum(v)`. -/
inductive LoadError where
  | keyError (field : String)
  | valueError (value : String)
deriving DecidableEq, Repr

/-- A raw dataset record (one JSON object of the `mappings` list);
`none` in a required field models the key being absent. -/
structure RawMapping where
  namaste_code : Option String
  namaste_display : Option String
  namaste_system : Option String
  icd11_code : Option String
  icd11_display : Option String
  equivalence : Option String
  notes : Option String
deriving DecidableEq, Repr

/-- A validated code mapping (`mapping_engine.CodeMapping`). -/
structure CodeMapping where
  namaste_code : String
  namaste_display : String
  namaste_system : String
  icd11_code : String
  icd11_display : String
  equivalence : EquivalenceEnum
  notes : Option String
deriving DecidableEq, Repr

/-- `CodeMapping.__init__`: reads the required keys in source order
(an absent key raises `KeyError` naming that key), then parses
`equivalence` through the closed enumeration.  `notes` uses `.get`, so
it never fails. -/
def CodeMapping.init (d : RawMapping) : Except LoadError CodeMapping :=
  match d.namaste_code with
  | none => Except.error (LoadError.keyError "namaste_code")
  | some nc =>
  match d.namaste_display with
  | none => Except.error (LoadError.keyError "namaste_display")
  | some nd =>
  match d.namaste_system with
  | none => Except.error (LoadError.keyError "namaste_system")
  | some ns =>
  match d.icd11_code with
  | none => Except.error (LoadError.keyError "icd11_code")
  | some ic =>
  match d.icd11_display with
  | none => Except.error (LoadError.keyError "icd11_display")
  | some idisp =>
  match d.equivalence with
  | none => Except.error (LoadError.keyError "equivalence")
  | some es =>
  match EquivalenceEnum.ofString? es with
  | some ev =>
      Except.ok
        { namaste_code := nc, namaste_display := nd, namaste_system := ns,
          icd11_code := ic, icd11_display := idisp, equivalence := ev,
          notes := d.notes }
  | none => Except.error (LoadError.valueError es)

/-- Dictionary read, first (and only) binding of the key. -/
def dictGet {α : Type} : List (String × α) → String → Option α
  | [], _ => none
  | (k', v) :: rest, k => if k' = k then some v else dictGet rest k

/-- Dictionary assignment `d[k] = v` with CPython semantics: replace in
place if the key exists, else append. -/
def dictSet {α : Type} : List (String × α) → String → α → List (String × α)
  | [], k, v => [(k, v)]
  | (k', v') :: rest, k, v =>
      if k' = k then (k, v) :: rest else (k', v') :: dictSet rest k v

/-- The reverse-index update `d.setdefault(k, []).append(v)` pattern of
`_load_mappings`: append `v` to the list at `k`, creating `[v]` if the
key is fresh. -/
def dictAppend {α : Type} : List (String × List α) → String → α → List (String × List α)
  | [], k, v => [(k, [v])]
  | (k', vs) :: rest, k, v =>
      if k' = k then (k', vs ++ [v]) :: rest else (k', vs) :: dictAppend rest k v

/-- The engine state (`MappingEngine`): forward index, reverse index
and the metadata blob. -/
structure MappingEngine where
  mappings : List (String × CodeMapping)
  reverse_mappings : List (String × List CodeMapping)
  metadata : List (String × String)
deriving DecidableEq, Repr

/-- A dataset document: `metadata` object and ordered `mappings` list. -/
structure Dataset where
  metadata : List (String × String)
  mappings : List RawMapping
deriving DecidableEq, Repr

/-- One iteration of the `_load_mappings` loop body after parsing:
`self.mappings[m.namaste_code] = m` and append `m` to
`self.reverse_mappings[m.icd11_code]`. -/
def insertRecord (e : MappingEngine) (m : CodeMapping) : MappingEngine :=
  { e with
    mappings := dictSet e.mappings m.namaste_code m,
    reverse_mappings := dictAppend e.reverse_mappings m.icd11_code m }

/-- Folding a list of already-parsed records into an engine state. -/
def insertAll (e : MappingEngine) (l : List CodeMapping) : MappingEngine :=
  l.foldl insertRecord e

/-- The engine state before any record is loaded. -/
def emptyEngine (meta : List (String × String)) : MappingEngine :=
  { mappings := [], reverse_mappings := [], metadata := meta }

/-- Parsing every raw record in order, stopping at the first failure
(the loop in `_load_mappings` constructs `CodeMapping(mapping_data)`
per record; the first exception propagates). -/
def parseAll : List RawMapping → Except LoadError (List CodeMapping)
  | [] => Except.ok []
  | raw :: rest =>
      match CodeMapping.init raw with
      | Except.error err => Except.error err
      | Except.ok m =>
          match parseAll rest with
          | Except.error err => Except.error err
          | Except.ok l => Except.ok (m :: l)

/-- The `_load_mappings` loop: parse each record and insert it into
both indices; an exception aborts the load (and, since it escapes
`MappingEngine.__init__`, leaves no engine object behind). -/
def loadLoop (e : MappingEngine) : List RawMapping → Except LoadError MappingEngine
  | [] => Except.ok e
  | raw :: rest =>
      match CodeMapping.init raw with
      | Except.error err => Except.error err
      | Except.ok m => loadLoop (insertRecord e m) rest

/-- `MappingEngine.__init__` + `_load_mappings` over an in-memory
dataset document. -/
def loadMappings (ds : Dataset) : Except LoadError MappingEngine :=
  loadLoop (emptyEngine ds.metadata) ds.mappings

/-- The NAMASTE code-system URI constant of `translate_code`. -/
def namaste_system_uri : String := "http://namaste.gov.in/fhir/CodeSystem/namaste"

/-- The ICD-11 code-system URI constant of `translate_code`. -/
def icd11_system_uri : String := "http://id.who.int/icd11/mms"

/-- `MappingEngine.translate_namaste_to_icd11`: single forward-index
lookup. -/
def translate_namaste_to_icd11 (e : MappingEngine) (code : String) :
    Bool × Option CodeMapping :=
  match dictGet e.mappings code with
  | some m => (true, some m)
  | none => (false, none)

/-- `MappingEngine.translate_icd11_to_namaste`: reverse-index lookup
returning the whole ordered list; an absent key yields the `[]`
default of `.get`, hence `(False, [])`. -/
def translate_icd11_to_namaste (e : MappingEngine) (code : String) :
    Bool × List CodeMapping :=
  let ms := (dictGet e.reverse_mappings code).getD []
  if ms.isEmpty then (false, []) else (true, ms)

/-- `MappingEngine.translate_code`: direction dispatch on the two URI
constants; any other pair falls into the unsupported branch. -/
def translate_code (e : MappingEngine) (code source_system target_system : String) :
    Bool × Option CodeMapping × List CodeMapping :=
  if source_system = namaste_system_uri ∧ target_system = icd11_system_uri then
    let r := translate_namaste_to_icd11 e code
    (r.1, r.2, match r.2 with | some m => [m] | none => [])
  else if source_system = icd11_system_uri ∧ target_system = namaste_system_uri then
    let r := translate_icd11_to_namaste e code
    (r.1, r.2.head?, r.2)
  else
    (false, none, [])

/-- `MappingEngine.get_mapping_by_code`: plain forward lookup. -/
def get_mapping_by_code (e : MappingEngine) (namaste_code : String) : Option CodeMapping :=
  dictGet e.mappings namaste_code

/-- Lower-casing, `str.lower()` (characterwise, as Lean `Char.toLower`). -/
def pyLower (s : String) : String :=
  String.mk (s.data.map Char.toLower)

/-- Whether `nee` occurs at the start of `hay`. -/
def charsStart : (hay nee : List Char) → Bool
  | _, [] => true
  | [], _ :: _ => false
  | h :: ht, c :: nt => h == c && charsStart ht nt

/-- Whether `nee` occurs anywhere inside `hay` (Python `nee in hay`;
in particular the empty needle is contained in everything). -/
def charsContain (nee : List Char) : (hay : List Char) → Bool
  | [] => charsStart [] nee
  | h :: ht => charsStart (h :: ht) nee || charsContain nee ht

/-- Python substring containment `needle in haystack`. -/
def pyIn (needle haystack : String) : Bool :=
  charsContain needle.data haystack.data

/-- `getattr(mapping, field, "")` over the attributes of `CodeMapping`;
`none` is Python `None` (an absent `notes`), the final branch is the
`""` default for an unknown attribute name. -/
def getField (m : CodeMapping) (f : String) : Option String :=
  if f = "namaste_code" then some m.namaste_code
  else if f = "namaste_display" then some m.namaste_display
  else if f = "namaste_system" then some m.namaste_system
  else if f = "icd11_code" then some m.icd11_code
  else if f = "icd11_display" then some m.icd11_display
  else if f = "equivalence" then some m.equivalence.value
  else if f = "notes" then m.notes
  else some ""

/-- Python truthiness of an optional string: non-None and non-empty. -/
def truthy : Option String → Bool
  | none => false
  | some s => !s.isEmpty

/-- One iteration of the inner field loop of `search_mappings`:
`if field_value and query_lower in field_value.lower()`. -/
def fieldMatches (query_lower : String) (m : CodeMapping) (f : String) : Bool :=
  match getField m f with
  | none => false
  | some s => !s.isEmpty && pyIn query_lower (pyLower s)

/-- Whether a record is appended to the results list of
`search_mappings`: some searched field matches (the `break` makes each
record appear at most once). -/
def recordMatches (query_lower : String) (fields : List String) (m : CodeMapping) : Bool :=
  fields.any (fieldMatches query_lower m)

/-- The default `search_fields` of `search_mappings`. -/
def defaultSearchFields : List String :=
  ["namaste_display", "icd11_display", "notes"]

/-- `MappingEngine.search_mappings`: iterate `self.mappings.values()`
in index (insertion) order and keep the records some searched field of
which contains the lower-cased query. -/
def search_mappings (e : MappingEngine) (query : String) (fields : List String) :
    List CodeMapping :=
  (e.mappings.map Prod.snd).filter (recordMatches (pyLower query) fields)

/-- One target entry of a concept-map element. -/
structure ConceptMapTargetEntry where
  code : String
  display : String
  equivalence : String
deriving DecidableEq, Repr

/-- One element of the list `get_mappings_for_concept_map` returns. -/
structure ConceptMapEntry where
  source_code : String
  source_display : String
  targets : List ConceptMapTargetEntry
deriving DecidableEq, Repr

/-- The forward-direction element built for one record. -/
def forwardEntry (m : CodeMapping) : ConceptMapEntry :=
  { source_code := m.namaste_code,
    source_display := m.namaste_display,
    targets := [⟨m.icd11_code, m.icd11_display, m.equivalence.value⟩] }

/-- The reverse-direction element built for one reverse-index entry.
The Python indexes `mappings[0].icd11_display`; reverse-index lists are
never empty for a loaded engine (`reverse_lists_ne_nil`), so the `""`
fallback of `head?` is unreachable there. -/
def reverseEntry (icd11_code : String) (ms : List CodeMapping) : ConceptMapEntry :=
  { source_code := icd11_code,
    source_display := ((ms.head?).map CodeMapping.icd11_display).getD "",
    targets := ms.map (fun m => ⟨m.namaste_code, m.namaste_display, m.equivalence.value⟩) }

/-- The reverse-direction loop of `get_mappings_for_concept_map`,
carrying the `processed_icd11_codes` set. -/
def reverseConceptEntries : List (String × List CodeMapping) → List String → List ConceptMapEntry
  | [], _ => []
  | (code, ms) :: rest, processed =>
      if code ∈ processed then reverseConceptEntries rest processed
      else reverseEntry code ms :: reverseConceptEntries rest (code :: processed)

/-- `MappingEngine.get_mappings_for_concept_map`: direction dispatch on
the two URI constants. -/
def get_mappings_for_concept_map (e : MappingEngine) (source_system target_system : String) :
    List ConceptMapEntry :=
  if source_system = namaste_system_uri ∧ target_system = icd11_system_uri then
    (e.mappings.map Prod.snd).map forwardEntry
  else if source_system = icd11_system_uri ∧ target_system = namaste_system_uri then
    reverseConceptEntries e.reverse_mappings []
  else
    []

/-- The output shape of `MappingEngine.get_statistics`. -/
structure Statistics where
  total_mappings : Nat
  by_traditional_system : List (String × Nat)
  by_equivalence : List (String × Nat)
  reverse_mappings : Nat
  metadata : List (String × String)
deriving DecidableEq, Repr

/-- `counts[k] = counts.get(k, 0) + 1`. -/
def bumpCount (d : List (String × Nat)) (k : String) : List (String × Nat) :=
  dictSet d k ((dictGet d k).getD 0 + 1)

/-- `MappingEngine.get_statistics`: the single Python loop bumps both
count dictionaries per record; that is the same as one fold per
dictionary over the forward-index values. -/
def get_statistics (e : MappingEngine) : Statistics :=
  let vals := e.mappings.map Prod.snd
  { total_mappings := e.mappings.length,
    by_traditional_system := vals.foldl (fun d m => bumpCount d m.namaste_system) [],
    by_equivalence := vals.foldl (fun d m => bumpCount d m.equivalence.value) [],
    reverse_mappings := e.reverse_mappings.length,
    metadata := e.metadata }

/-- `MappingEngine.validate_mapping` (defined in the source but never
invoked by `_load_mappings`). -/
def validate_mapping (m : CodeMapping) : List String :=
  (if m.namaste_code = "" then ["Missing NAMASTE code"] else []) ++
  (if m.icd11_code = "" then ["Missing ICD-11 code"] else []) ++
  (if m.namaste_display = "" then ["Missing NAMASTE display name"] else []) ++
  (if m.icd11_display = "" then ["Missing ICD-11 display name"] else []) ++
  (if m.namaste_system ∈ ["Ayurveda", "Siddha", "Unani"] then []
   else ["Invalid traditional medicine system"])

/-- FHIR `Coding` (`models.Coding`). -/
structure Coding where
  system : String
  code : String
  display : Option String
deriving DecidableEq, Repr

/-- FHIR nested parameter part (`models.ParameterPart`). -/
structure ParameterPart where
  name : String
  valueCode : Option String
  valueCoding : Option Coding
deriving DecidableEq, Repr

/-- FHIR parameter (`models.Parameter`). -/
structure Parameter where
  name : String
  valueBoolean : Option Bool
  valueString : Option String
  part : Option (List ParameterPart)
deriving DecidableEq, Repr

/-- FHIR `Parameters` resource (`models.ParametersResource`). -/
structure ParametersResource where
  resourceType : String
  parameter : List Parameter
deriving DecidableEq, Repr

/-- `FHIRResourceBuilder.build_translate_response`: the `result`
parameter always; the `match` parameter only when `result` and the
target code and system are truthy; the `ai_explanation` parameter only
when that argument is truthy. -/
def build_translate_response (result : Bool) (source_code : String)
    (target_code target_display target_system : Option String)
    (equivalence : EquivalenceEnum) (ai_explanation : Option String) :
    ParametersResource :=
  let base : List Parameter := [⟨"result", some result, none, none⟩]
  let withMatch : List Parameter :=
    if result && truthy target_code && truthy target_system then
      base ++ [⟨"match", none, none,
        some [⟨"equivalence", some equivalence.value, none⟩,
              ⟨"concept", none,
               some ⟨target_system.getD "", target_code.getD "", target_display⟩⟩]⟩]
    else base
  let withAi : List Parameter :=
    if truthy ai_explanation then
      withMatch ++ [⟨"ai_explanation", none, ai_explanation, none⟩]
    else withMatch
  ⟨"Parameters", withAi⟩

/-- The failure branch of the `/translate` endpoint (`main.py`): on an
unsuccessful translation it calls the builder with `result=False`, the
source code, and every other argument left at its default
(`None` targets, `equivalent`, no explanation). -/
def translate_failure_response (source_code : String) : ParametersResource :=
  build_translate_response false source_code none none none EquivalenceEnum.equivalent none

/-- Derived characterization (not a source function): the last record
of `l` whose `namaste_code` is `c`, the record that survives
overwrite-on-duplicate in the forward index. -/
def lastWithSource (c : String) : List CodeMapping → Option CodeMapping
  | [] => none
  | m :: rest =>
      match lastWithSource c rest with
      | some m' => some m'
      | none => if m.namaste_code = c then some m else none

/-- Derived characterization (not a source function): the records of
`l` whose `icd11_code` is `t`, in load order — the contents of the
reverse-index list for key `t`. -/
def recordsWithTarget (t : String) (l : List CodeMapping) : List CodeMapping :=
  l.filter (fun m => decide (m.icd11_code = t))

/-- Sum of the counts of a counting dictionary. -/
def sumValues (d : List (String × Nat)) : Nat :=
  (d.map Prod.snd).sum

/-- Total number of records across all reverse-index lists. -/
def reverseTotal (e : MappingEngine) : Nat :=
  (e.reverse_mappings.map (fun p => p.2.length)).sum

/-- Modelled from the spec's words, for comparison with the source:
the claimed search matching rule on one field — the field's
lower-cased value contains the lower-cased query as a substring. -/
def claimedFieldMatch (query : String) (m : CodeMapping) (f : String) : Bool :=
  match getField m f with
  | none => false
  | some s => pyIn (pyLower query) (pyLower s)

/-- Modelled from the spec's words, for comparison with the source:
the claimed search matching rule — any configured field contains the
lower-cased query. -/
def claimedMatches (query : String) (m : CodeMapping) : Bool :=
  defaultSearchFields.any (claimedFieldMatch query m)

/-- Shorthand for a raw dataset record with every required key present. -/
def mkRaw (nc nd ns ic idp ev : String) (nt : Option String) : RawMapping :=
  ⟨some nc, some nd, some ns, some ic, some idp, some ev, nt⟩

/-- A dataset with two records sharing one source code but differing
in target and equivalence. -/
def dsDupSource : Dataset :=
  ⟨[],
   [mkRaw "NAM-1001" "Pandu" "Ayurveda" "DB64.0" "Iron deficiency anaemia" "equivalent" none,
    mkRaw "NAM-1001" "Pandu late" "Ayurveda" "5B5K.0" "Other anaemia" "wider" none]⟩

/-- The first (earlier-loaded) parsed record of `dsDupSource`. -/
def rDup1 : CodeMapping :=
  ⟨"NAM-1001", "Pandu", "Ayurveda", "DB64.0", "Iron deficiency anaemia",
   EquivalenceEnum.equivalent, none⟩

/-- The second (later-loaded) parsed record of `dsDupSource`. -/
def rDup2 : CodeMapping :=
  ⟨"NAM-1001", "Pandu late", "Ayurveda", "5B5K.0", "Other anaemia",
   EquivalenceEnum.wider, none⟩

/-- A one-record dataset used to instantiate the universal theorems. -/
def dsSingle : Dataset :=
  ⟨[("version", "1.0")],
   [mkRaw "NAM-1001" "Pandu" "Ayurveda" "DB64.0" "Iron deficiency anaemia" "equivalent"
      (some "Anaemia due to iron deficiency")]⟩

/-- The parsed record of `dsSingle`. -/
def rSingle : CodeMapping :=
  ⟨"NAM-1001", "Pandu", "Ayurveda", "DB64.0", "Iron deficiency anaemia",
   EquivalenceEnum.equivalent, some "Anaemia due to iron deficiency"⟩

/-- A dataset whose record carries a traditional-medicine system tag
outside the recognized set (`Homeopathy`). -/
def dsBadSystem : Dataset :=
  ⟨[],
   [mkRaw "NAM-3003" "Test" "Homeopathy" "AB1.2" "Test target" "equivalent" none]⟩

/-- The parsed record of `dsBadSystem`. -/
def rBadSystem : CodeMapping :=
  ⟨"NAM-3003", "Test", "Homeopathy", "AB1.2", "Test target",
   EquivalenceEnum.equivalent, none⟩

/-- The engine state `dsBadSystem` loads into. -/
def engBadSystem : MappingEngine :=
  ⟨[("NAM-3003", rBadSystem)], [("AB1.2", [rBadSystem])], []⟩

/-- A raw record lacking the required `icd11_code` key. -/
def rawMissingField : RawMapping :=
  ⟨some "NAM-4004", some "Test", some "Ayurveda", none, some "Test target",
   some "equivalent", none⟩

/-- A dataset whose record lacks the required `icd11_code` key. -/
def dsMissingField : Dataset :=
  ⟨[], [rawMissingField]⟩

/-- A dataset loaded in descending source-code order, both records
matching the query `pain`. -/
def dsOrder : Dataset :=
  ⟨[],
   [mkRaw "NAM-B02" "Back pain" "Ayurveda" "ME84.2" "Low back pain" "equivalent" none,
    mkRaw "NAM-A01" "Knee pain" "Ayurveda" "ME82" "Knee pain" "equivalent" none]⟩

/-- A dataset whose single record has empty display fields and no
notes. -/
def dsEmptyDisplays : Dataset :=
  ⟨[], [mkRaw "NAM-E01" "" "Ayurveda" "EE1" "" "equivalent" none]⟩

/-- The parsed record of `dsEmptyDisplays`. -/
def rEmptyDisplays : CodeMapping :=
  ⟨"NAM-E01", "", "Ayurveda", "EE1", "", EquivalenceEnum.equivalent, none⟩

/-- A dataset where two distinct source codes map to the same target
code. -/
def dsSharedTarget : Dataset :=
  ⟨[],
   [mkRaw "NAM-1001" "Pandu" "Ayurveda" "DB64.0" "Iron deficiency anaemia" "equivalent" none,
    mkRaw "NAM-2002" "Raktalpata" "Siddha" "DB64.0" "Iron deficiency anaemia" "wider" none]⟩

/-- The first parsed record of `dsSharedTarget`. -/
def rShared1 : CodeMapping :=
  ⟨"NAM-1001", "Pandu", "Ayurveda", "DB64.0", "Iron deficiency anaemia",
   EquivalenceEnum.equivalent, none⟩

/-- The second parsed record of `dsSharedTarget`. -/
def rShared2 : CodeMapping :=
  ⟨"NAM-2002", "Raktalpata", "Siddha", "DB64.0", "Iron deficiency anaemia",
   EquivalenceEnum.wider, none⟩

/-- The engine state `dsSingle` loads into. -/
def engSingle : MappingEngine :=
  ⟨[("NAM-1001", rSingle)], [("DB64.0", [rSingle])], [("version", "1.0")]⟩

/-- The engine state `dsDupSource` loads into. -/
def engDupSource : MappingEngine :=
  ⟨[("NAM-1001", rDup2)], [("DB64.0", [rDup1]), ("5B5K.0", [rDup2])], []⟩

/-- The engine state `dsSharedTarget` loads into. -/
def engSharedTarget : MappingEngine :=
  ⟨[("NAM-1001", rShared1), ("NAM-2002", rShared2)], [("DB64.0", [rShared1, rShared2])], []⟩

/-- Code-point lexicographic strict order on character lists (the order
Python string comparison uses). -/
def charListLt : List Char → List Char → Bool
  | [], [] => false
  | [], _ :: _ => true
  | _ :: _, [] => false
  | a :: as, b :: bs =>
      decide (a.toNat < b.toNat) || (a == b && charListLt as bs)

/-- Code-point lexicographic strict order on strings. -/
def strLt (a b : String) : Bool :=
  charListLt a.data b.data

theorem dictGet_dictSet {α : Type} (m : List (String × α)) (k c : String) (v : α) :
    dictGet (dictSet m k v) c = if k = c then some v else dictGet m c := by
  induction m with
  | nil => simp [dictSet, dictGet]
  | cons p rest ih =>
      obtain ⟨k', v'⟩ := p
      by_cases h : k' = k
      · subst h
        by_cases hc : k' = c <;> simp [dictSet, dictGet, hc]
      · by_cases hc : k' = c
        · subst hc
          have hk : ¬ k = k' := fun h' => h h'.symm
          simp [dictSet, dictGet, h, hk]
        · simp [dictSet, dictGet, h, hc, ih]

theorem dictGet_dictAppend {α : Type} (m : List (String × List α)) (k c : String) (v : α) :
    dictGet (dictAppend m k v) c =
      if k = c then some ((dictGet m c).getD [] ++ [v]) else dictGet m c := by
  induction m with
  | nil => simp [dictAppend, dictGet]
  | cons p rest ih =>
      obtain ⟨k', vs⟩ := p
      by_cases h : k' = k
      · subst h
        by_cases hc : k' = c <;> simp [dictAppend, dictGet, hc]
      · by_cases hc : k' = c
        · subst hc
          have hk : ¬ k = k' := fun h' => h h'.symm
          simp [dictAppend, dictGet, h, hk]
        · simp [dictAppend, dictGet, h, hc, ih]

theorem insertAll_cons (e : MappingEngine) (m : CodeMapping) (l : List CodeMapping) :
    insertAll e (m :: l) = insertAll (insertRecord e m) l := rfl

theorem loadLoop_eq_parseAll (raws : List RawMapping) :
    ∀ e : MappingEngine, loadLoop e raws = (parseAll raws).map (insertAll e) := by
  induction raws with
  | nil => intro e; rfl
  | cons raw rest ih =>
      intro e
      show (match CodeMapping.init raw with
            | Except.error err => Except.error err
            | Except.ok m => loadLoop (insertRecord e m) rest) = _
      cases hp : CodeMapping.init raw with
      | error err => simp [parseAll, hp, Except.map]
      | ok m =>
          show loadLoop (insertRecord e m) rest = _
          rw [ih (insertRecord e m)]
          cases hr : parseAll rest with
          | error err => simp [parseAll, hp, hr, Except.map]
          | ok l => simp [parseAll, hp, hr, Except.map, insertAll_cons]

theorem loadMappings_eq_parseAll (ds : Dataset) :
    loadMappings ds = (parseAll ds.mappings).map (insertAll (emptyEngine ds.metadata)) :=
  loadLoop_eq_parseAll ds.mappings (emptyEngine ds.metadata)

theorem loadMappings_ok_elim (ds : Dataset) (e : MappingEngine) (l : List CodeMapping)
    (he : loadMappings ds = Except.ok e) (hl : parseAll ds.mappings = Except.ok l) :
    e = insertAll (emptyEngine ds.metadata) l := by
  rw [loadMappings_eq_parseAll, hl] at he
  simpa [Except.map] using he.symm

theorem parseAll_error_of_bad_mem (raw : RawMapping)
    (hbad : ∀ m, CodeMapping.init raw ≠ Except.ok m) :
    ∀ raws : List RawMapping, raw ∈ raws → ∃ err, parseAll raws = Except.error err := by
  intro raws
  induction raws with
  | nil => intro h; cases h
  | cons r rest ih =>
      intro hmem
      cases hp : CodeMapping.init r with
      | error err => exact ⟨err, by simp [parseAll, hp]⟩
      | ok m =>
          rcases List.mem_cons.mp hmem with heq | hrest
          · subst heq; exact absurd hp (hbad m)
          · obtain ⟨err, herr⟩ := ih hrest
            exact ⟨err, by simp [parseAll, hp, herr]⟩

theorem lastWithSource_mem (c : String) :
    ∀ (l : List CodeMapping) (x : CodeMapping),
      lastWithSource c l = some x → x ∈ l ∧ x.namaste_code = c := by
  intro l
  induction l with
  | nil => intro x h; cases h
  | cons m rest ih =>
      intro x h
      rw [lastWithSource] at h
      cases hr : lastWithSource c rest with
      | some m' =>
          rw [hr] at h
          obtain ⟨hm, hc⟩ := ih m' hr
          cases h
          exact ⟨List.mem_cons_of_mem _ hm, hc⟩
      | none =>
          rw [hr] at h
          by_cases hc : m.namaste_code = c
          · rw [if_pos hc] at h
            cases h
            exact ⟨List.mem_cons_self _ _, hc⟩
          · rw [if_neg hc] at h
            cases h

theorem lastWithSource_isSome (c : String) :
    ∀ (l : List CodeMapping) (r : CodeMapping),
      r ∈ l → r.namaste_code = c → (lastWithSource c l).isSome := by
  intro l
  induction l with
  | nil => intro r h; cases h
  | cons m rest ih =>
      intro r hmem hc
      rw [lastWithSource]
      cases hr : lastWithSource c rest with
      | some m' => simp
      | none =>
          rcases List.mem_cons.mp hmem with heq | hrest
          · subst heq; simp [hc]
          · have := ih r hrest hc
            rw [hr] at this
            simp at this

theorem dictGet_insertAll_mappings (c : String) :
    ∀ (l : List CodeMapping) (e : MappingEngine),
      dictGet (insertAll e l).mappings c =
        match lastWithSource c l with
        | some m => some m
        | none => dictGet e.mappings c := by
  intro l
  induction l with
  | nil => intro e; rfl
  | cons m rest ih =>
      intro e
      rw [insertAll_cons, ih (insertRecord e m), lastWithSource]
      cases hr : lastWithSource c rest with
      | some m' => rfl
      | none =>
          show dictGet (dictSet e.mappings m.namaste_code m) c = _
          rw [dictGet_dictSet]
          by_cases hc : m.namaste_code = c <;> simp [hc]

theorem recordsWithTarget_cons (t : String) (m : CodeMapping) (l : List CodeMapping) :
    recordsWithTarget t (m :: l) =
      if m.icd11_code = t then m :: recordsWithTarget t l else recordsWithTarget t l := by
  by_cases h : m.icd11_code = t <;> simp [recordsWithTarget, h]

theorem dictGet_insertAll_reverse (t : String) :
    ∀ (l : List CodeMapping) (e : MappingEngine),
      dictGet (insertAll e l).reverse_mappings t =
        match dictGet e.reverse_mappings t with
        | some vs => some (vs ++ recordsWithTarget t l)
        | none =>
            if (recordsWithTarget t l).isEmpty then none else some (recordsWithTarget t l) := by
  intro l
  induction l with
  | nil =>
      intro e
      cases h : dictGet e.reverse_mappings t <;> simp [insertAll, recordsWithTarget, h]
  | cons m rest ih =>
      intro e
      rw [insertAll_cons, ih (insertRecord e m), recordsWithTarget_cons]
      show (match dictGet (dictAppend e.reverse_mappings m.icd11_code m) t with
            | some vs => some (vs ++ recordsWithTarget t rest)
            | none => _) = _
      rw [dictGet_dictAppend]
      by_cases hc : m.icd11_code = t
      · rw [if_pos hc, if_pos hc]
        cases h : dictGet e.reverse_mappings t <;> simp [h, List.isEmpty]
      · rw [if_neg hc, if_neg hc]

theorem init_ok_fields (raw : RawMapping) (m : CodeMapping)
    (h : CodeMapping.init raw = Except.ok m) :
    raw.namaste_code = some m.namaste_code ∧
    raw.namaste_display = some m.namaste_display ∧
    raw.namaste_system = some m.namaste_system ∧
    raw.icd11_code = some m.icd11_code ∧
    raw.icd11_display = some m.icd11_display ∧
    ∃ s, raw.equivalence = some s ∧ EquivalenceEnum.ofString? s = some m.equivalence := by
  rw [CodeMapping.init] at h
  cases hnc : raw.namaste_code with
  | none => rw [hnc] at h; exact Except.noConfusion h
  | some nc =>
  simp only [hnc] at h
  cases hnd : raw.namaste_display with
  | none => rw [hnd] at h; exact Except.noConfusion h
  | some nd =>
  simp only [hnd] at h
  cases hns : raw.namaste_system with
  | none => rw [hns] at h; exact Except.noConfusion h
  | some ns =>
  simp only [hns] at h
  cases hic : raw.icd11_code with
  | none => rw [hic] at h; exact Except.noConfusion h
  | some ic =>
  simp only [hic] at h
  cases hid : raw.icd11_display with
  | none => rw [hid] at h; exact Except.noConfusion h
  | some idisp =>
  simp only [hid] at h
  cases hes : raw.equivalence with
  | none => rw [hes] at h; exact Except.noConfusion h
  | some es =>
  simp only [hes] at h
  cases hev : EquivalenceEnum.ofString? es with
  | none => rw [hev] at h; exact Except.noConfusion h
  | some ev =>
  simp only [hev] at h
  cases h
  exact ⟨rfl, rfl, rfl, rfl, rfl, es, rfl, hev⟩

theorem dictSet_fresh {α : Type} (k : String) (v : α) :
    ∀ m : List (String × α), (∀ p ∈ m, p.1 ≠ k) → dictSet m k v = m ++ [(k, v)] := by
  intro m
  induction m with
  | nil => intro _; rfl
  | cons p rest ih =>
      intro hf
      obtain ⟨k', v'⟩ := p
      have hk : k' ≠ k := hf (k', v') (List.mem_cons_self _ _)
      show (if k' = k then (k, v) :: rest else (k', v') :: dictSet rest k v) = _
      rw [if_neg hk, ih (fun p hp => hf p (List.mem_cons_of_mem _ hp))]
      rfl

theorem insertAll_mappings_nodup :
    ∀ (l : List CodeMapping) (e : MappingEngine),
      (l.map CodeMapping.namaste_code).Nodup →
      (∀ m ∈ l, ∀ p ∈ e.mappings, p.1 ≠ m.namaste_code) →
      (insertAll e l).mappings = e.mappings ++ l.map (fun m => (m.namaste_code, m)) := by
  intro l
  induction l with
  | nil => intro e _ _; simp [insertAll]
  | cons m rest ih =>
      intro e hnd hf
      rw [insertAll_cons]
      have hnd' : (rest.map CodeMapping.namaste_code).Nodup := (List.nodup_cons.mp hnd).2
      have hm : m.namaste_code ∉ rest.map CodeMapping.namaste_code := (List.nodup_cons.mp hnd).1
      have hset : (insertRecord e m).mappings = e.mappings ++ [(m.namaste_code, m)] := by
        show dictSet e.mappings m.namaste_code m = _
        exact dictSet_fresh _ _ _ (fun p hp => hf m (List.mem_cons_self _ _) p hp)
      have hf' : ∀ m' ∈ rest, ∀ p ∈ (insertRecord e m).mappings, p.1 ≠ m'.namaste_code := by
        intro m' hm' p hp
        rw [hset] at hp
        rcases List.mem_append.mp hp with hpe | hpm
        · exact hf m' (List.mem_cons_of_mem _ hm') p hpe
        · rcases List.mem_singleton.mp hpm with rfl
          intro hcontra
          apply hm
          have hcc : m.namaste_code = m'.namaste_code := hcontra
          rw [hcc]
          exact List.mem_map_of_mem CodeMapping.namaste_code hm'
      rw [ih (insertRecord e m) hnd' hf', hset]
      simp

theorem dictAppend_keys {α : Type} (k : String) (v : α) :
    ∀ m : List (String × List α),
      (dictAppend m k v).map Prod.fst =
        if k ∈ m.map Prod.fst then m.map Prod.fst else m.map Prod.fst ++ [k] := by
  intro m
  induction m with
  | nil => simp [dictAppend]
  | cons p rest ih =>
      obtain ⟨k', vs⟩ := p
      by_cases h : k' = k
      · subst h
        simp [dictAppend]
      · have hk : k ≠ k' := fun h' => h h'.symm
        show ((if k' = k then (k', vs ++ [v]) :: rest else (k', vs) :: dictAppend rest k v).map Prod.fst) = _
        rw [if_neg h]
        by_cases hmem : k ∈ rest.map Prod.fst
        · simp [ih, hmem, hk]
        · simp [ih, hmem, hk]

theorem insertAll_reverse_keys_nodup :
    ∀ (l : List CodeMapping) (e : MappingEngine),
      (e.reverse_mappings.map Prod.fst).Nodup →
      ((insertAll e l).reverse_mappings.map Prod.fst).Nodup := by
  intro l
  induction l with
  | nil => intro e h; exact h
  | cons m rest ih =>
      intro e hnd
      rw [insertAll_cons]
      apply ih
      show ((dictAppend e.reverse_mappings m.icd11_code m).map Prod.fst).Nodup
      rw [dictAppend_keys]
      by_cases hmem : m.icd11_code ∈ e.reverse_mappings.map Prod.fst
      · rw [if_pos hmem]; exact hnd
      · rw [if_neg hmem]
        refine hnd.append (List.nodup_singleton _) ?_
        intro a ha hb
        rw [List.mem_singleton] at hb
        subst hb
        exact hmem ha

theorem dictGet_of_mem_nodup {α : Type} (k : String) (v : α) :
    ∀ m : List (String × α), (m.map Prod.fst).Nodup → (k, v) ∈ m → dictGet m k = some v := by
  intro m
  induction m with
  | nil => intro _ h; cases h
  | cons p rest ih =>
      intro hnd hmem
      obtain ⟨k', v'⟩ := p
      rcases List.mem_cons.mp hmem with heq | hrest
      · cases heq
        show (if k = k then some v else dictGet rest k) = some v
        rw [if_pos rfl]
      · have hk : k' ≠ k := by
          intro hcontra
          subst hcontra
          have : k' ∈ rest.map Prod.fst := List.mem_map_of_mem Prod.fst hrest
          exact (List.nodup_cons.mp (by simpa using hnd)).1 this
        show (if k' = k then some v' else dictGet rest k) = some v
        rw [if_neg hk]
        exact ih (List.nodup_cons.mp (by simpa using hnd)).2 hrest

theorem mem_dictGet {α : Type} (k : String) (v : α) :
    ∀ m : List (String × α), dictGet m k = some v → (k, v) ∈ m := by
  intro m
  induction m with
  | nil => intro h; cases h
  | cons p rest ih =>
      intro h
      obtain ⟨k', v'⟩ := p
      by_cases hk : k' = k
      · subst hk
        rw [show dictGet ((k', v') :: rest) k' = some v' from if_pos rfl] at h
        cases h
        exact List.mem_cons_self _ _
      · rw [show dictGet ((k', v') :: rest) k = dictGet rest k from if_neg hk] at h
        exact List.mem_cons_of_mem _ (ih h)

theorem reverseConceptEntries_eq_map :
    ∀ (items : List (String × List CodeMapping)) (processed : List String),
      (items.map Prod.fst).Nodup →
      (∀ k ∈ items.map Prod.fst, k ∉ processed) →
      reverseConceptEntries items processed = items.map (fun p => reverseEntry p.1 p.2) := by
  intro items
  induction items with
  | nil => intro _ _ _; rfl
  | cons p rest ih =>
      intro processed hnd hdis
      obtain ⟨code, ms⟩ := p
      have hnp : code ∉ processed := hdis code (by simp)
      show (if code ∈ processed then reverseConceptEntries rest processed
            else reverseEntry code ms :: reverseConceptEntries rest (code :: processed)) = _
      rw [if_neg hnp]
      have hnd' : (rest.map Prod.fst).Nodup := (List.nodup_cons.mp (by simpa using hnd)).2
      have hcode : code ∉ rest.map Prod.fst := (List.nodup_cons.mp (by simpa using hnd)).1
      rw [ih (code :: processed) hnd' ?hd]
      · rfl
      case hd =>
        intro k hk
        simp only [List.mem_cons, not_or]
        exact ⟨fun h => hcode (h ▸ hk), hdis k (List.mem_cons_of_mem _ hk)⟩

theorem sumValues_bumpCount (k : String) :
    ∀ d : List (String × Nat), sumValues (bumpCount d k) = sumValues d + 1 := by
  intro d
  induction d with
  | nil => rfl
  | cons p rest ih =>
      obtain ⟨k', v⟩ := p
      by_cases h : k' = k
      · subst h
        show sumValues (dictSet ((k', v) :: rest) k' ((dictGet ((k', v) :: rest) k').getD 0 + 1)) = _
        rw [show dictGet ((k', v) :: rest) k' = some v from if_pos rfl]
        show sumValues (if k' = k' then _ :: rest else _) = _
        rw [if_pos rfl]
        show (v + 1) + sumValues rest = (v + sumValues rest) + 1
        omega
      · show sumValues (dictSet ((k', v) :: rest) k ((dictGet ((k', v) :: rest) k).getD 0 + 1)) = _
        rw [show dictGet ((k', v) :: rest) k = dictGet rest k from if_neg h]
        show sumValues (if k' = k then _ :: rest else (k', v) :: dictSet rest k _) = _
        rw [if_neg h]
        show v + sumValues (bumpCount rest k) = (v + sumValues rest) + 1
        rw [ih]
        omega

theorem sumValues_foldl_bump {α : Type} (f : α → String) :
    ∀ (vals : List α) (d : List (String × Nat)),
      sumValues (vals.foldl (fun d m => bumpCount d (f m)) d) = sumValues d + vals.length := by
  intro vals
  induction vals with
  | nil => intro d; simp
  | cons m rest ih =>
      intro d
      show sumValues (rest.foldl _ (bumpCount d (f m))) = _
      rw [ih (bumpCount d (f m)), sumValues_bumpCount]
      simp
      omega

theorem getField_namaste_display (m : CodeMapping) :
    getField m "namaste_display" = some m.namaste_display := rfl

theorem getField_icd11_display (m : CodeMapping) :
    getField m "icd11_display" = some m.icd11_display := rfl

theorem getField_notes (m : CodeMapping) :
    getField m "notes" = m.notes := rfl

theorem translate_code_forward (e : MappingEngine) (c : String) :
    translate_code e c namaste_system_uri icd11_system_uri =
      ((translate_namaste_to_icd11 e c).1, (translate_namaste_to_icd11 e c).2,
       match (translate_namaste_to_icd11 e c).2 with
       | some m => [m]
       | none => []) := by
  rw [translate_code, if_pos (show _ ∧ _ from ⟨rfl, rfl⟩)]

theorem translate_code_reverse (e : MappingEngine) (c : String) :
    translate_code e c icd11_system_uri namaste_system_uri =
      ((translate_icd11_to_namaste e c).1, (translate_icd11_to_namaste e c).2.head?,
       (translate_icd11_to_namaste e c).2) := by
  rw [translate_code, if_neg (by decide), if_pos (show _ ∧ _ from ⟨rfl, rfl⟩)]

theorem translate_forward_of_get (e : MappingEngine) (c : String) (m : CodeMapping)
    (h : dictGet e.mappings c = some m) :
    translate_namaste_to_icd11 e c = (true, some m) := by
  rw [translate_namaste_to_icd11, h]

theorem translate_reverse_of_get (e : MappingEngine) (c : String) (ms : List CodeMapping)
    (h : dictGet e.reverse_mappings c = some ms) (hne : ¬ ms.isEmpty = true) :
    translate_icd11_to_namaste e c = (true, ms) := by
  rw [translate_icd11_to_namaste, h]
  show (if ms.isEmpty then (false, []) else (true, ms)) = (true, ms)
  rw [if_neg hne]

/-- C3: for every engine state, code and pair of system URIs that is
neither (NAMASTE, ICD-11) nor (ICD-11, NAMASTE), `translate_code`
returns the not-found triple — success `false`, no primary mapping and
an empty mapping list — which is also exactly what a supported
direction returns for an absent code, so the two conditions are
observationally identical.  (The embedding is a total function, so no
exception is raised.) -/
theorem C3_unsupported_direction (e : MappingEngine) (code src tgt : String)
    (h1 : ¬(src = namaste_system_uri ∧ tgt = icd11_system_uri))
    (h2 : ¬(src = icd11_system_uri ∧ tgt = namaste_system_uri)) :
    translate_code e code src tgt = (false, none, []) ∧
    translate_code (emptyEngine []) code namaste_system_uri icd11_system_uri =
      (false, none, []) := by
  constructor
  · rw [translate_code, if_neg h1, if_neg h2]
  · rw [translate_code_forward]
    rfl

theorem C3_witness :
    translate_code (emptyEngine []) "NAM-1001" "http://example.org/other" "http://id.who.int/icd11/mms" =
      (false, none, []) ∧
    translate_code (emptyEngine []) "NAM-1001" namaste_system_uri icd11_system_uri =
      (false, none, []) :=
  C3_unsupported_direction (emptyEngine []) "NAM-1001" "http://example.org/other"
    "http://id.who.int/icd11/mms" (by decide) (by decide)

/-- C6: for every engine state (in particular every loaded dataset),
the statistics invariants hold: the per-traditional-system counts and
the per-equivalence counts each sum to the total mapping count. -/
theorem C6_statistics_sums (e : MappingEngine) :
    sumValues (get_statistics e).by_traditional_system = (get_statistics e).total_mappings ∧
    sumValues (get_statistics e).by_equivalence = (get_statistics e).total_mappings := by
  constructor
  · show sumValues ((e.mappings.map Prod.snd).foldl
        (fun d m => bumpCount d m.namaste_system) []) = e.mappings.length
    rw [sumValues_foldl_bump CodeMapping.namaste_system]
    simp [sumValues]
  · show sumValues ((e.mappings.map Prod.snd).foldl
        (fun d m => bumpCount d m.equivalence.value) []) = e.mappings.length
    rw [sumValues_foldl_bump (fun m : CodeMapping => m.equivalence.value)]
    simp [sumValues]

/-- C9: the operation-result shape built for a failed translation (the
failure branch passes `result=False` and leaves every other argument
at its default) carries exactly one parameter — `result` with boolean
value `false` — and, for any argument combination with `result=False`,
the built resource contains no parameter named `match` and no nested
parts (hence no target coding). -/
theorem C9_failure_response (source_code : String)
    (target_code target_display target_system : Option String)
    (equivalence : EquivalenceEnum) (ai_explanation : Option String) :
    (translate_failure_response source_code).parameter =
      [⟨"result", some false, none, none⟩] ∧
    ∀ p ∈ (build_translate_response false source_code target_code target_display
        target_system equivalence ai_explanation).parameter,
      p.name ≠ "match" ∧ p.part = none := by
  constructor
  · rfl
  · intro p hp
    have hB : (build_translate_response false source_code target_code target_display
        target_system equivalence ai_explanation).parameter =
        if truthy ai_explanation then
          [⟨"result", some false, none, none⟩, ⟨"ai_explanation", none, ai_explanation, none⟩]
        else
          [⟨"result", some false, none, none⟩] := rfl
    rw [hB] at hp
    cases hai : truthy ai_explanation with
    | false =>
        rw [hai, if_neg (by decide)] at hp
        rcases List.mem_singleton.mp hp with rfl
        refine ⟨?_, rfl⟩
        show ("result" : String) ≠ "match"
        decide
    | true =>
        rw [hai, if_pos rfl] at hp
        rcases List.mem_cons.mp hp with h | h
        · rcases h with rfl
          refine ⟨?_, rfl⟩
          show ("result" : String) ≠ "match"
          decide
        · rcases List.mem_singleton.mp h with rfl
          refine ⟨?_, rfl⟩
          show ("ai_explanation" : String) ≠ "match"
          decide

/-- C1 (amended): for every record R of a loaded dataset whose source
code no other parsed record shares, `translate_code` on R's source
code, from the NAMASTE system URI to the ICD-11 system URI, succeeds
and returns R itself as the primary mapping (hence R's exact target
code, target display and equivalence), together with the singleton
mapping list.  (The uniqueness hypothesis is forced by the
overwrite-on-duplicate forward index, see the counterexample.) -/
theorem C1_forward_translation (ds : Dataset) (e : MappingEngine) (l : List CodeMapping)
    (r : CodeMapping)
    (he : loadMappings ds = Except.ok e)
    (hl : parseAll ds.mappings = Except.ok l)
    (hr : r ∈ l)
    (huniq : ∀ r' ∈ l, r'.namaste_code = r.namaste_code → r' = r) :
    translate_code e r.namaste_code namaste_system_uri icd11_system_uri =
      (true, some r, [r]) := by
  have hee := loadMappings_ok_elim ds e l he hl
  subst hee
  have hlast : lastWithSource r.namaste_code l = some r := by
    have hsome := lastWithSource_isSome r.namaste_code l r hr rfl
    cases hx : lastWithSource r.namaste_code l with
    | none => rw [hx] at hsome; cases hsome
    | some x =>
        obtain ⟨hxm, hxc⟩ := lastWithSource_mem r.namaste_code l x hx
        rw [huniq x hxm hxc]
  have hget : dictGet (insertAll (emptyEngine ds.metadata) l).mappings r.namaste_code =
      some r := by
    rw [dictGet_insertAll_mappings, hlast]
  rw [translate_code_forward, translate_forward_of_get _ _ _ hget]

theorem C1_witness :
    translate_code engSingle rSingle.namaste_code namaste_system_uri icd11_system_uri =
      (true, some rSingle, [rSingle]) :=
  C1_forward_translation dsSingle engSingle [rSingle] rSingle rfl rfl
    (List.mem_singleton.mpr rfl)
    (by
      intro r' h _
      exact List.mem_singleton.mp h)

theorem C1_counterexample :
    parseAll dsDupSource.mappings = Except.ok [rDup1, rDup2] ∧
    loadMappings dsDupSource = Except.ok engDupSource ∧
    translate_code engDupSource rDup1.namaste_code namaste_system_uri icd11_system_uri =
      (true, some rDup2, [rDup2]) ∧
    rDup2.icd11_code ≠ rDup1.icd11_code ∧
    rDup2.icd11_display ≠ rDup1.icd11_display ∧
    rDup2.equivalence ≠ rDup1.equivalence := by
  refine ⟨rfl, rfl, ?_, by decide, by decide, by decide⟩
  rfl

/-- C2: for every record R of a loaded dataset, `translate_code` on
R's target code, from the ICD-11 system URI to the NAMASTE system URI,
succeeds, returns as mapping list exactly the reverse-index list for
that target code (the records with that target code in load order, R
among them, so the list contains an entry whose source code is R's),
and returns as primary mapping the first element of that list — the
earliest-loaded record for the target code. -/
theorem C2_reverse_translation (ds : Dataset) (e : MappingEngine) (l : List CodeMapping)
    (r : CodeMapping)
    (he : loadMappings ds = Except.ok e)
    (hl : parseAll ds.mappings = Except.ok l)
    (hr : r ∈ l) :
    translate_code e r.icd11_code icd11_system_uri namaste_system_uri =
      (true, (recordsWithTarget r.icd11_code l).head?, recordsWithTarget r.icd11_code l) ∧
    r ∈ recordsWithTarget r.icd11_code l := by
  have hee := loadMappings_ok_elim ds e l he hl
  subst hee
  have hmem : r ∈ recordsWithTarget r.icd11_code l :=
    List.mem_filter.mpr ⟨hr, by simp⟩
  have hne : ¬ (recordsWithTarget r.icd11_code l).isEmpty = true := by
    cases hx : recordsWithTarget r.icd11_code l with
    | nil => rw [hx] at hmem; cases hmem
    | cons a t => simp [List.isEmpty]
  have hget : dictGet (insertAll (emptyEngine ds.metadata) l).reverse_mappings r.icd11_code =
      some (recordsWithTarget r.icd11_code l) := by
    rw [dictGet_insertAll_reverse]
    show (if (recordsWithTarget r.icd11_code l).isEmpty then none
          else some (recordsWithTarget r.icd11_code l)) = _
    rw [if_neg hne]
  rw [translate_code_reverse, translate_reverse_of_get _ _ _ hget hne]
  exact ⟨rfl, hmem⟩

theorem C2_witness :
    translate_code engSingle rSingle.icd11_code icd11_system_uri namaste_system_uri =
      (true, (recordsWithTarget rSingle.icd11_code [rSingle]).head?,
       recordsWithTarget rSingle.icd11_code [rSingle]) ∧
    rSingle ∈ recordsWithTarget rSingle.icd11_code [rSingle] :=
  C2_reverse_translation dsSingle engSingle [rSingle] rSingle rfl rfl
    (List.mem_singleton.mpr rfl)

/-- C4 (amended): for every dataset containing a record with a missing
required field or an unrecognized equivalence value, loading fails — an
error naming the missing key (`KeyError`) or the invalid value
(`ValueError`) propagates out of the constructor, so no engine object
(and hence no partially-loaded index) results.  A record whose
traditional-medicine system tag is unrecognized does NOT fail loading
(see the counterexample): the source never runs its system-tag check
at load time. -/
theorem C4_load_fails_on_bad_record (ds : Dataset) (raw : RawMapping)
    (hmem : raw ∈ ds.mappings)
    (hbad : raw.namaste_code = none ∨ raw.namaste_display = none ∨
            raw.namaste_system = none ∨ raw.icd11_code = none ∨
            raw.icd11_display = none ∨ raw.equivalence = none ∨
            ∃ s, raw.equivalence = some s ∧ EquivalenceEnum.ofString? s = none) :
    ∃ err, loadMappings ds = Except.error err := by
  have hbad' : ∀ m, CodeMapping.init raw ≠ Except.ok m := by
    intro m hok
    obtain ⟨h1, h2, h3, h4, h5, s, h6, h7⟩ := init_ok_fields raw m hok
    rcases hbad with h | h | h | h | h | h | ⟨s', hs', hv⟩
    · rw [h] at h1; exact Option.noConfusion h1
    · rw [h] at h2; exact Option.noConfusion h2
    · rw [h] at h3; exact Option.noConfusion h3
    · rw [h] at h4; exact Option.noConfusion h4
    · rw [h] at h5; exact Option.noConfusion h5
    · rw [h] at h6; exact Option.noConfusion h6
    · rw [hs'] at h6
      cases h6
      rw [h7] at hv
      exact Option.noConfusion hv
  obtain ⟨err, herr⟩ := parseAll_error_of_bad_mem raw hbad' ds.mappings hmem
  refine ⟨err, ?_⟩
  rw [loadMappings_eq_parseAll, herr]
  rfl

theorem C4_witness :
    ∃ err, loadMappings dsMissingField = Except.error err :=
  C4_load_fails_on_bad_record dsMissingField rawMissingField
    (List.mem_singleton.mpr rfl)
    (Or.inr (Or.inr (Or.inr (Or.inl rfl))))

theorem C4_counterexample :
    loadMappings dsBadSystem = Except.ok engBadSystem ∧
    engBadSystem.mappings = [(rBadSystem.namaste_code, rBadSystem)] ∧
    rBadSystem.namaste_system ∉ ["Ayurveda", "Siddha", "Unani"] ∧
    validate_mapping rBadSystem = ["Invalid traditional medicine system"] := by
  refine ⟨rfl, rfl, by decide, rfl⟩

/-- C10 (implicit): loading a dataset whose two parsed records share a
source code leaves the forward index holding only the later record
under that code (so the reported total is 1), while the reverse index
retains both records, appended in load order under their respective
target codes: reverse translation of the earlier record's target code
still returns a list containing the overwritten earlier record, and
the total record count across all reverse-index lists (2) exceeds the
forward-index size reported as `total_mappings` (1). -/
theorem C10_duplicate_handling (ds : Dataset) (e : MappingEngine) (r1 r2 : CodeMapping)
    (he : loadMappings ds = Except.ok e)
    (hl : parseAll ds.mappings = Except.ok [r1, r2])
    (hdup : r2.namaste_code = r1.namaste_code) :
    dictGet e.mappings r1.namaste_code = some r2 ∧
    (get_statistics e).total_mappings = 1 ∧
    r1 ∈ (translate_icd11_to_namaste e r1.icd11_code).2 ∧
    reverseTotal e = 2 ∧
    (get_statistics e).total_mappings < reverseTotal e := by
  have hee := loadMappings_ok_elim ds e [r1, r2] he hl
  subst hee
  have hm : (insertAll (emptyEngine ds.metadata) [r1, r2]).mappings =
      [(r2.namaste_code, r2)] := by
    show dictSet (dictSet [] r1.namaste_code r1) r2.namaste_code r2 = _
    show (if r1.namaste_code = r2.namaste_code then [(r2.namaste_code, r2)]
          else (r1.namaste_code, r1) :: dictSet [] r2.namaste_code r2) = _
    rw [if_pos hdup.symm]
  have hrev : (insertAll (emptyEngine ds.metadata) [r1, r2]).reverse_mappings =
      if r1.icd11_code = r2.icd11_code then [(r1.icd11_code, [r1, r2])]
      else [(r1.icd11_code, [r1]), (r2.icd11_code, [r2])] := by
    show dictAppend (dictAppend [] r1.icd11_code r1) r2.icd11_code r2 = _
    show (if r1.icd11_code = r2.icd11_code then [(r1.icd11_code, [r1] ++ [r2])]
          else (r1.icd11_code, [r1]) :: dictAppend [] r2.icd11_code r2) = _
    by_cases hT : r1.icd11_code = r2.icd11_code
    · rw [if_pos hT, if_pos hT]
      rfl
    · rw [if_neg hT, if_neg hT]
      rfl
  have hc1 : dictGet (insertAll (emptyEngine ds.metadata) [r1, r2]).mappings
      r1.namaste_code = some r2 := by
    rw [hm]
    show (if r2.namaste_code = r1.namaste_code then some r2 else dictGet [] r1.namaste_code) = _
    rw [if_pos hdup]
  have hc2 : (get_statistics (insertAll (emptyEngine ds.metadata) [r1, r2])).total_mappings = 1 := by
    show (insertAll (emptyEngine ds.metadata) [r1, r2]).mappings.length = 1
    rw [hm]
    rfl
  have hc3 : r1 ∈ (translate_icd11_to_namaste (insertAll (emptyEngine ds.metadata) [r1, r2])
      r1.icd11_code).2 := by
    by_cases hT : r1.icd11_code = r2.icd11_code
    · have hg : dictGet (insertAll (emptyEngine ds.metadata) [r1, r2]).reverse_mappings
          r1.icd11_code = some [r1, r2] := by
        rw [hrev, if_pos hT]
        exact if_pos rfl
      rw [translate_reverse_of_get _ _ _ hg (by simp)]
      exact List.mem_cons_self _ _
    · have hg : dictGet (insertAll (emptyEngine ds.metadata) [r1, r2]).reverse_mappings
          r1.icd11_code = some [r1] := by
        rw [hrev, if_neg hT]
        exact if_pos rfl
      rw [translate_reverse_of_get _ _ _ hg (by simp)]
      exact List.mem_singleton.mpr rfl
  have hc4 : reverseTotal (insertAll (emptyEngine ds.metadata) [r1, r2]) = 2 := by
    rw [reverseTotal, hrev]
    by_cases hT : r1.icd11_code = r2.icd11_code
    · rw [if_pos hT]
      rfl
    · rw [if_neg hT]
      rfl
  exact ⟨hc1, hc2, hc3, hc4, by rw [hc2, hc4]; exact Nat.one_lt_two⟩

theorem C10_witness :
    dictGet engDupSource.mappings rDup1.namaste_code = some rDup2 ∧
    (get_statistics engDupSource).total_mappings = 1 ∧
    rDup1 ∈ (translate_icd11_to_namaste engDupSource rDup1.icd11_code).2 ∧
    reverseTotal engDupSource = 2 ∧
    (get_statistics engDupSource).total_mappings < reverseTotal engDupSource :=
  C10_duplicate_handling dsDupSource engDupSource rDup1 rDup2 rfl rfl rfl

/-- C5 (amended): for every loaded dataset with pairwise distinct
source codes, `search_mappings` returns the matching records in
forward-index insertion order, which is dataset load order — not in
ascending source-code order (see the counterexample).  The order is
deterministic for a given loaded store, but it is the index's native
iteration order. -/
theorem C5_search_order (ds : Dataset) (e : MappingEngine) (l : List CodeMapping) (q : String)
    (he : loadMappings ds = Except.ok e)
    (hl : parseAll ds.mappings = Except.ok l)
    (hnd : (l.map CodeMapping.namaste_code).Nodup) :
    search_mappings e q defaultSearchFields =
      l.filter (recordMatches (pyLower q) defaultSearchFields) := by
  have hee := loadMappings_ok_elim ds e l he hl
  subst hee
  have hvals : (insertAll (emptyEngine ds.metadata) l).mappings =
      l.map (fun m => (m.namaste_code, m)) := by
    have h := insertAll_mappings_nodup l (emptyEngine ds.metadata) hnd
      (by intro m _ p hp; cases hp)
    simpa using h
  rw [search_mappings, hvals, List.map_map]
  have hcomp : (Prod.snd ∘ fun m : CodeMapping => (m.namaste_code, m)) = id := rfl
  rw [hcomp, List.map_id]

theorem C5_witness :
    search_mappings engSingle "pandu" defaultSearchFields =
      [rSingle].filter (recordMatches (pyLower "pandu") defaultSearchFields) ∧
    search_mappings engSingle "pandu" defaultSearchFields = [rSingle] := by
  constructor
  · exact C5_search_order dsSingle engSingle [rSingle] "pandu" rfl rfl (by decide)
  · rfl

theorem C5_counterexample :
    (loadMappings dsOrder).map
        (fun e => (search_mappings e "pain" defaultSearchFields).map CodeMapping.namaste_code) =
      Except.ok ["NAM-B02", "NAM-A01"] ∧
    strLt "NAM-A01" "NAM-B02" = true := by
  exact ⟨rfl, rfl⟩

/-- C7: for every loaded dataset, reverse-direction concept grouping
produces exactly one element per distinct reverse-index key (the
element source codes are the reverse-index keys, without duplicates),
each element's targets array lists every record mapped to that key (in
load order), and each element's source display text is the target
display of the first record in that reverse list. -/
theorem C7_reverse_grouping (ds : Dataset) (e : MappingEngine) (l : List CodeMapping)
    (he : loadMappings ds = Except.ok e)
    (hl : parseAll ds.mappings = Except.ok l) :
    (get_mappings_for_concept_map e icd11_system_uri namaste_system_uri).map
        ConceptMapEntry.source_code = e.reverse_mappings.map Prod.fst ∧
    (e.reverse_mappings.map Prod.fst).Nodup ∧
    ∀ g ∈ get_mappings_for_concept_map e icd11_system_uri namaste_system_uri,
      g.targets = (recordsWithTarget g.source_code l).map
          (fun m => ⟨m.namaste_code, m.namaste_display, m.equivalence.value⟩) ∧
      (recordsWithTarget g.source_code l).head?.map CodeMapping.icd11_display =
        some g.source_display := by
  have hee := loadMappings_ok_elim ds e l he hl
  subst hee
  have hnd : ((insertAll (emptyEngine ds.metadata) l).reverse_mappings.map Prod.fst).Nodup :=
    insertAll_reverse_keys_nodup l (emptyEngine ds.metadata) List.nodup_nil
  have hcm : get_mappings_for_concept_map (insertAll (emptyEngine ds.metadata) l)
      icd11_system_uri namaste_system_uri =
      (insertAll (emptyEngine ds.metadata) l).reverse_mappings.map
        (fun p => reverseEntry p.1 p.2) := by
    rw [get_mappings_for_concept_map, if_neg (by decide), if_pos (show _ ∧ _ from ⟨rfl, rfl⟩)]
    exact reverseConceptEntries_eq_map _ [] hnd (by intro k _ hk; cases hk)
  refine ⟨?_, hnd, ?_⟩
  · rw [hcm, List.map_map]
    rfl
  · intro g hg
    rw [hcm] at hg
    obtain ⟨⟨k, ms⟩, hpmem, rfl⟩ := List.mem_map.mp hg
    have hget : dictGet (insertAll (emptyEngine ds.metadata) l).reverse_mappings k = some ms :=
      dictGet_of_mem_nodup k ms _ hnd hpmem
    rw [dictGet_insertAll_reverse] at hget
    have hget2 : (if (recordsWithTarget k l).isEmpty then none
        else some (recordsWithTarget k l)) = some ms := hget
    by_cases hE : (recordsWithTarget k l).isEmpty
    · rw [if_pos hE] at hget2
      exact Option.noConfusion hget2
    · rw [if_neg hE] at hget2
      have hms : recordsWithTarget k l = ms := Option.some.inj hget2
      constructor
      · show (reverseEntry k ms).targets = (recordsWithTarget (reverseEntry k ms).source_code l).map _
        show ms.map _ = (recordsWithTarget k l).map _
        rw [hms]
      · show (recordsWithTarget k l).head?.map CodeMapping.icd11_display =
          some (reverseEntry k ms).source_display
        rw [hms]
        cases hc : ms with
        | nil =>
            rw [hc] at hms
            rw [hms] at hE
            exact absurd rfl hE
        | cons m0 t => rfl

theorem C7_witness :
    ((get_mappings_for_concept_map engSharedTarget icd11_system_uri namaste_system_uri).map
        ConceptMapEntry.source_code = engSharedTarget.reverse_mappings.map Prod.fst ∧
      (engSharedTarget.reverse_mappings.map Prod.fst).Nodup ∧
      ∀ g ∈ get_mappings_for_concept_map engSharedTarget icd11_system_uri namaste_system_uri,
        g.targets = (recordsWithTarget g.source_code [rShared1, rShared2]).map
            (fun m => ⟨m.namaste_code, m.namaste_display, m.equivalence.value⟩) ∧
        (recordsWithTarget g.source_code [rShared1, rShared2]).head?.map
            CodeMapping.icd11_display = some g.source_display) ∧
    get_mappings_for_concept_map engSharedTarget icd11_system_uri namaste_system_uri =
      [⟨"DB64.0", "Iron deficiency anaemia",
        [⟨"NAM-1001", "Pandu", "equivalent"⟩, ⟨"NAM-2002", "Raktalpata", "wider"⟩]⟩] :=
  ⟨C7_reverse_grouping dsSharedTarget engSharedTarget [rShared1, rShared2] rfl rfl, rfl⟩

theorem not_isEmpty_iff (s : String) : (!s.isEmpty) = true ↔ s ≠ "" := by
  rw [Bool.not_eq_true']
  constructor
  · intro h hs
    subst hs
    exact Bool.noConfusion h
  · intro h
    cases hb : s.isEmpty
    · rfl
    · exact absurd ((String.isEmpty_iff s).mp hb) h

theorem isEmpty_false_iff (s : String) : (s.isEmpty = false) ↔ ¬ s = "" := by
  rw [← Bool.not_eq_true']
  exact not_isEmpty_iff s

theorem field_test_iff (q s : String) :
    (!s.isEmpty && pyIn q (pyLower s)) = true ↔ s ≠ "" ∧ pyIn q (pyLower s) = true := by
  rw [Bool.and_eq_true, not_isEmpty_iff]

theorem recordMatches_default_iff (q : String) (m : CodeMapping) :
    recordMatches q defaultSearchFields m = true ↔
      (m.namaste_display ≠ "" ∧ pyIn q (pyLower m.namaste_display) = true) ∨
      (m.icd11_display ≠ "" ∧ pyIn q (pyLower m.icd11_display) = true) ∨
      (∃ n, m.notes = some n ∧ n ≠ "" ∧ pyIn q (pyLower n) = true) := by
  have hrm : recordMatches q defaultSearchFields m =
      ((!m.namaste_display.isEmpty && pyIn q (pyLower m.namaste_display)) ||
       ((!m.icd11_display.isEmpty && pyIn q (pyLower m.icd11_display)) ||
        ((match m.notes with
          | none => false
          | some s => !s.isEmpty && pyIn q (pyLower s)) || false))) := rfl
  rw [hrm]
  cases hn : m.notes with
  | none => simp [field_test_iff, isEmpty_false_iff]
  | some s => simp [field_test_iff, isEmpty_false_iff]

/-- C8 (amended): search is case-insensitive — two queries with the
same lower-casing (in particular any case variant of the same query)
yield identical result sequences — and a record is returned iff it is
in the forward index and some configured field (`namaste_display`,
`icd11_display`, `notes`) has a NON-EMPTY value whose lower-casing
contains the lower-cased query as a substring.  (The non-emptiness
condition is forced by the truthiness guard in the source, see the
counterexample: with an empty query, an empty field does not match
even though the empty string contains the empty substring.) -/
theorem C8_search_case_insensitive (e : MappingEngine) (q q' : String) (m : CodeMapping)
    (hq : pyLower q = pyLower q') :
    search_mappings e q defaultSearchFields = search_mappings e q' defaultSearchFields ∧
    (m ∈ search_mappings e q defaultSearchFields ↔
      m ∈ e.mappings.map Prod.snd ∧
      ((m.namaste_display ≠ "" ∧ pyIn (pyLower q) (pyLower m.namaste_display) = true) ∨
       (m.icd11_display ≠ "" ∧ pyIn (pyLower q) (pyLower m.icd11_display) = true) ∨
       (∃ n, m.notes = some n ∧ n ≠ "" ∧ pyIn (pyLower q) (pyLower n) = true))) := by
  constructor
  · rw [search_mappings, search_mappings, hq]
  · rw [search_mappings, List.mem_filter]
    exact and_congr_right (fun _ => recordMatches_default_iff (pyLower q) m)

theorem C8_witness :
    pyLower "DIABETES" = pyLower "diabetes" ∧
    (search_mappings engSingle "DIABETES" defaultSearchFields =
        search_mappings engSingle "diabetes" defaultSearchFields ∧
      (rSingle ∈ search_mappings engSingle "DIABETES" defaultSearchFields ↔
        rSingle ∈ engSingle.mappings.map Prod.snd ∧
        ((rSingle.namaste_display ≠ "" ∧
            pyIn (pyLower "DIABETES") (pyLower rSingle.namaste_display) = true) ∨
         (rSingle.icd11_display ≠ "" ∧
            pyIn (pyLower "DIABETES") (pyLower rSingle.icd11_display) = true) ∨
         (∃ n, rSingle.notes = some n ∧ n ≠ "" ∧
            pyIn (pyLower "DIABETES") (pyLower n) = true)))) :=
  ⟨rfl, C8_search_case_insensitive engSingle "DIABETES" "diabetes" rSingle rfl⟩

theorem C8_counterexample :
    (loadMappings dsEmptyDisplays).map (fun e => e.mappings.map Prod.snd) =
      Except.ok [rEmptyDisplays] ∧
    (loadMappings dsEmptyDisplays).map (fun e => search_mappings e "" defaultSearchFields) =
      Except.ok [] ∧
    claimedMatches "" rEmptyDisplays = true :=
  ⟨rfl, rfl, rfl⟩

end AyushBridge
